import Mathlib

/-!
Shallow embedding of the interview-transcription backend (`backend/main.py`)
and proofs about its specification.

Modelling conventions:
* `datetime` values are abstract clock ticks (`Nat`); every operation that
  refreshes a timestamp takes the current tick as an explicit argument.
* Python floats carrying media timestamps are modelled as `ℚ` (the program
  performs no float arithmetic beyond formatting and summing).
* The in-memory store `DB: Dict[str, Interview]` is an association list
  `List (String × Interview)`; `uuid4` identifiers are explicit arguments.
* Cloudinary is treated as disabled (no credentials configured), matching the
  local-storage fallback path; its fields stay `none`.
* Fallible endpoints return `Except ApiErr _`; an uncaught Python exception
  that escapes a handler is `ApiErr.exn`.
-/

namespace Transcription

/-- One transcript segment (`TranscriptItem` in `main.py`). -/
structure TranscriptItem where
  start : ℚ
  «end» : ℚ
  text : String
deriving DecidableEq

/-- Canned analysis payload (`Analysis` in `main.py`).  The sub-objects that no
claim inspects (`questions`, `topics`, `speaker_analysis`) are omitted; only
their presence/absence matters and that is carried by the `Option` on the
record's `analysis` field. -/
structure Analysis where
  summary : Option String := none
  sentiment : Option String := none
  sentiment_score : Option ℚ := none
  keywords : Option (List String) := none
deriving DecidableEq

/-- User tag on an interview (`Tag` in `main.py`). -/
structure Tag where
  id : String
  text : String
  start_time : ℚ
  end_time : ℚ
  color : String := "#3B82F6"
  created_at : Nat := 0
deriving DecidableEq

/-- One search hit (`SearchResult` in `main.py`). -/
structure SearchResult where
  text : String
  start_time : ℚ
  end_time : ℚ
  line_number : Nat
deriving DecidableEq

/-- An interview record (`Interview` in `main.py`).  `status` ranges over the
four strings `"uploaded" | "processing" | "completed" | "failed"`. -/
structure Interview where
  id : String
  filename : String
  original_name : String
  file_size : Nat
  file_path : String
  cloudinary_url : Option String := none
  cloudinary_public_id : Option String := none
  upload_date : Nat := 0
  status : String := "uploaded"
  transcript : Option (List TranscriptItem) := none
  analysis : Option Analysis := none
  tags : List Tag := []
  created_at : Nat := 0
  updated_at : Nat := 0
deriving DecidableEq

/-- The in-memory store `DB: Dict[str, Interview]`. -/
abbrev DB := List (String × Interview)

/-- Errors surfaced by an endpoint: `HTTPException(404)`, `HTTPException(400)`
with its detail string, or an uncaught exception escaping the handler. -/
inductive ApiErr
  | notFound
  | badRequest (detail : String)
  | exn
deriving DecidableEq

instance {ε α : Type} [DecidableEq ε] [DecidableEq α] : DecidableEq (Except ε α) := fun a b =>
  match a, b with
  | .ok x, .ok y =>
    if h : x = y then isTrue (congrArg Except.ok h)
    else isFalse fun he => h (Except.ok.inj he)
  | .error x, .error y =>
    if h : x = y then isTrue (congrArg Except.error h)
    else isFalse fun he => h (Except.error.inj he)
  | .ok _, .error _ => isFalse fun he => Except.noConfusion he
  | .error _, .ok _ => isFalse fun he => Except.noConfusion he

/-- The fallback `SAMPLE_TRANSCRIPT["transcript"]` hard-coded in `main.py`
(the JSON sample files are not part of the repository, so the in-code
fallback is the data actually attached). -/
def SAMPLE_TRANSCRIPT : List TranscriptItem :=
  [ ⟨0, mkRat 5 2, "Hello, thank you for joining us today for this interview."⟩,
    ⟨mkRat 5 2, 5, "Could you please tell us a bit about your background and experience?"⟩,
    ⟨5, 8, "I have over 5 years of experience in software development, primarily working with React and Node.js."⟩,
    ⟨8, 12, "That's great! Can you walk us through a challenging project you've worked on recently?"⟩,
    ⟨12, 18, "Recently, I led a team of 4 developers to build a real-time collaboration platform using WebSockets and React."⟩ ]

/-- The fallback `SAMPLE_ANALYSIS` hard-coded in `main.py` (fields a claim can
observe). -/
def SAMPLE_ANALYSIS : Analysis :=
  { summary := some "A comprehensive interview covering the candidate's background, technical experience, and project management skills.",
    sentiment := some "positive",
    sentiment_score := some (mkRat 78 100),
    keywords := some ["React", "Node.js", "WebSockets", "team leadership", "collaboration"] }

/-! ## Upload validator (`upload_interview`, main.py lines 164–271) -/

/-- The extension of `os.path.splitext`: everything from the last `'.'` that is
preceded by some non-dot character; names with no such dot (including names
with no dot at all and dotfiles such as `.bashrc`) have extension `""`. -/
def splitextExt (s : String) : String :=
  let cs := s.data
  match ((List.range cs.length).filter fun i =>
      decide (cs.getD i ' ' = '.') && (List.range i).any fun j => decide (cs.getD j ' ' ≠ '.')).getLast? with
  | some i => ⟨cs.drop i⟩
  | none => ""

/-- The `content_type_to_ext` mapping (main.py lines 192–199). -/
def content_type_to_ext (ct : String) : Option String :=
  if ct = "audio/mpeg" then some ".mp3"
  else if ct = "audio/wav" then some ".wav"
  else if ct = "audio/mp3" then some ".mp3"
  else if ct = "video/mp4" then some ".mp4"
  else if ct = "video/quicktime" then some ".mov"
  else if ct = "video/x-msvideo" then some ".avi"
  else none

/-- The `allowed_extensions` set (main.py line 208). -/
def allowed_extensions : List String :=
  [".mp3", ".wav", ".mp4", ".mov", "mp3", "wav", "mp4", "mov"]

/-- Python's `str.lower()` (ASCII case folding, character by character). -/
def pyLower (s : String) : String := ⟨s.data.map Char.toLower⟩

/-- Python's `str.startswith('.')`. -/
def startsWithDot (s : String) : Bool :=
  match s.data with
  | '.' :: _ => true
  | _ => false

/-- Python's `str.lstrip('.')`. -/
def lstripDot (s : String) : String := ⟨s.data.dropWhile (· = '.')⟩

/-- Python's `needle in hay` substring test. -/
def strContains (hay needle : String) : Bool := hay.data.tails.any (needle.data.isPrefixOf ·)

/-- An incoming multipart upload.  `filename`/`contentType` are the values the
framework reports (`none` = Python `None`); `headerFilename` abstracts the
result of the `content-disposition` regex extraction that `main.py` attempts
when `file.filename` is falsy; `size` is `len(contents)` after
`await file.read()`. -/
structure UploadReq where
  filename : Option String := none
  headerFilename : Option String := none
  contentType : Option String := none
  size : Nat := 0

/-- Server-side persistent state: the record store plus the names of files
written to the upload directory. -/
structure ServerState where
  db : DB
  fs : List String
deriving DecidableEq

/-- Python truthiness of an optional string (`None` and `""` are falsy). -/
def optStrFalsy : Option String → Bool
  | none => true
  | some s => s = ""

/-- `original_filename` derivation (main.py 166–181): Python's
`file.filename or "unknown_file"` followed by the content-disposition
fallback (attempted only when `file.filename` is falsy). -/
def uploadOriginalFilename (req : UploadReq) : String :=
  if optStrFalsy req.filename then
    match req.headerFilename with
    | some h => h
    | none => "unknown_file"
  else req.filename.getD "unknown_file"

/-- The upload validator's extension inference (main.py 183–225) as the pure
cascade `(filename, content_type) → extension | error detail`:
splitext on the lower-cased name, fall back to the content-type mapping with
default `.mp4`, gate on the allowed set, last-resort relaxation on
`video`/`audio` content types, normalize a leading dot. -/
def inferExt (req : UploadReq) : Except String String :=
  let original_filename := uploadOriginalFilename req
  let ext0 := splitextExt (pyLower original_filename)
  let ext1 :=
    if ext0 = "" then
      match req.contentType with
      | some ct => (content_type_to_ext (pyLower ct)).getD ".mp4"
      | none => ".mp4"
    else ext0
  if ext1 ∈ allowed_extensions ∨ lstripDot ext1 ∈ allowed_extensions then
    .ok (if startsWithDot ext1 then ext1 else "." ++ ext1)
  else if !optStrFalsy req.contentType &&
      strContains (pyLower (req.contentType.getD "")) "video" then .ok ".mp4"
  else if !optStrFalsy req.contentType &&
      strContains (pyLower (req.contentType.getD "")) "audio" then .ok ".mp3"
  else
    .error ("Unsupported format '" ++ ext1 ++ "'. Allowed formats: MP3, WAV, MP4, MOV. Content-Type: "
      ++ (match req.contentType with | some c => c | none => "None")
      ++ ". Filename: " ++ original_filename)

/-- `upload_interview` (main.py lines 164–271), with the fresh uuid and the
clock passed explicitly.  Returns the state as left by the handler together
with the response: on a validation error the handler raises before writing the
file or creating the record, so the state component is the input state. -/
def upload_interview (st : ServerState) (req : UploadReq) (newId : String) (now : Nat) :
    ServerState × Except ApiErr Interview :=
  match inferExt req with
  | .error d => (st, .error (.badRequest d))
  | .ok ext =>
    if req.size > 100 * 1024 * 1024 then
      (st, .error (.badRequest "File too large (>100MB)"))
    else
      let stored_name := newId ++ ext
      let interview : Interview :=
        { id := newId
          filename := stored_name
          original_name := uploadOriginalFilename req
          file_size := req.size
          file_path := "./uploads/" ++ stored_name
          cloudinary_url := none
          cloudinary_public_id := none
          upload_date := now
          status := "uploaded"
          transcript := none
          analysis := none
          tags := []
          created_at := now
          updated_at := now }
      (⟨st.db ++ [(newId, interview)], st.fs ++ [stored_name]⟩, .ok interview)

/-! ## Record store primitives -/

/-- Dictionary lookup `DB.get(id)`. -/
def dbLookup (db : DB) (id : String) : Option Interview :=
  match db with
  | [] => none
  | (k, v) :: rest => if k = id then some v else dbLookup rest id

/-- In-place mutation `DB[id].field = ...`: rewrite the entry with the given
key, leaving every other entry untouched. -/
def dbUpdate (db : DB) (id : String) (f : Interview → Interview) : DB :=
  db.map fun p => if p.1 = id then (p.1, f p.2) else p

/-- Python's `interview_id in DB`. -/
def present (db : DB) (id : String) : Bool := (dbLookup db id).isSome

/-! ## Transcription simulator (`_simulate_transcription`, main.py 309–322)

The simulator body is a `try` block of discrete mutations on `DB[id]`.  A run
is modelled by the point at which an exception interrupts it (`SimFault`); the
spec's defensive catch-all exists precisely because attaching the canned data
may raise.  Accessing a key that is no longer in the store raises `KeyError`,
both in the body and in the `except` handler. -/

/-- Where (if anywhere) an exception interrupts the simulator body. -/
inductive SimFault
  | fnone        -- the run completes without an exception
  | atTranscript -- raised while evaluating/assigning the canned transcript
  | atAnalysis   -- raised while evaluating/assigning the canned analysis
deriving DecidableEq

/-- The `except` handler (main.py 320–322): set `status = "failed"` and refresh
`updated_at`.  If the record is gone, `DB[interview_id]` raises `KeyError`
inside the handler and the exception escapes the function.  Returns the
snapshots of the store after each of its mutations, and the outcome. -/
def handleSimFailure (db : DB) (id : String) (now : Nat) : List DB × Except Unit DB :=
  if present db id then
    let e1 := dbUpdate db id fun iv => { iv with status := "failed" }
    let e2 := dbUpdate e1 id fun iv => { iv with updated_at := now }
    ([e1, e2], .ok e2)
  else ([], .error ())

/-- `_simulate_transcription`, as the list of store snapshots after each
primitive mutation (the states a concurrent reader could observe) together
with the final outcome: `.ok` final store, or `.error ()` when an exception
escapes the function. -/
def simRun (db : DB) (id : String) (now : Nat) (fault : SimFault) : List DB × Except Unit DB :=
  if present db id then
    let d1 := dbUpdate db id fun iv => { iv with status := "processing" }
    let d2 := dbUpdate d1 id fun iv => { iv with updated_at := now }
    if fault = .atTranscript then
      let r := handleSimFailure d2 id now
      ([d1, d2] ++ r.1, r.2)
    else
      let d3 := dbUpdate d2 id fun iv => { iv with transcript := some SAMPLE_TRANSCRIPT }
      if fault = .atAnalysis then
        let r := handleSimFailure d3 id now
        ([d1, d2, d3] ++ r.1, r.2)
      else
        let d4 := dbUpdate d3 id fun iv => { iv with analysis := some SAMPLE_ANALYSIS }
        let d5 := dbUpdate d4 id fun iv => { iv with status := "completed" }
        let d6 := dbUpdate d5 id fun iv => { iv with updated_at := now }
        ([d1, d2, d3, d4, d5, d6], .ok d6)
  else
    -- `DB[interview_id].status = "processing"` raises `KeyError`; the handler
    -- accesses the same missing key and raises again.
    handleSimFailure db id now

/-- Final outcome of a simulator run. -/
def simulateTranscription (db : DB) (id : String) (now : Nat) (fault : SimFault) :
    Except Unit DB :=
  (simRun db id now fault).2

/-- Store snapshots visible during a simulator run. -/
def simTrace (db : DB) (id : String) (now : Nat) (fault : SimFault) : List DB :=
  (simRun db id now fault).1

/-- Response body of the transcribe endpoint. -/
structure TranscribeResp where
  ok : Bool
  status : String
deriving DecidableEq

/-- `transcribe` (main.py 324–332).  The boolean in the result records whether
`background_tasks.add_task(_simulate_transcription, ...)` was invoked. -/
def transcribe (db : DB) (id : String) : Except ApiErr (TranscribeResp × Bool) :=
  match dbLookup db id with
  | none => .error .notFound
  | some iv =>
    if iv.status = "processing" ∨ iv.status = "completed" then
      .ok (⟨true, iv.status⟩, false)
    else
      .ok (⟨true, "processing"⟩, true)

/-! ## Tags (main.py 381–401) -/

/-- `add_tag` (main.py 381–390). -/
def add_tag (db : DB) (id : String) (tag : Tag) (now : Nat) : Except ApiErr (DB × Tag) :=
  match dbLookup db id with
  | none => .error .notFound
  | some _ =>
    .ok (dbUpdate db id (fun iv => { iv with tags := iv.tags ++ [tag], updated_at := now }), tag)

/-- `delete_tag` (main.py 392–401); a success responds `{"ok": True}`. -/
def delete_tag (db : DB) (id : String) (tag_id : String) (now : Nat) : Except ApiErr DB :=
  match dbLookup db id with
  | none => .error .notFound
  | some _ =>
    .ok (dbUpdate db id fun iv =>
      { iv with tags := iv.tags.filter (fun t => t.id != tag_id), updated_at := now })

/-- `delete_interview` (main.py 503–528), restricted to the record store (the
best-effort blob/file cleanups do not touch the store). -/
def delete_interview (db : DB) (id : String) : Except ApiErr DB :=
  match dbLookup db id with
  | none => .error .notFound
  | some _ => .ok (db.filter fun p => p.1 != id)

/-! ## Transcript search (`search_transcript`, main.py 355–379)

`re.search(query, item.text, flags)` interprets the query as a regular
expression.  The regex engine is modelled on the pattern subset the claims
exercise: patterns built from literal characters and `.` (any character except
a newline).  A pattern opening a group that is never closed is a compile-time
`re.error` (`missing ), unterminated subpattern`).  Patterns using other regex
metacharacters are outside the modelled subset (`PatParse.unmodelled`), and
the endpoint model returns `none` for them rather than guessing. -/

/-- One token of the modelled pattern subset. -/
inductive RTok
  | lit (c : Char)
  | dot
deriving DecidableEq

/-- Python `re` metacharacters. -/
def isMetachar (c : Char) : Bool :=
  c ∈ ['.', '^', '$', '*', '+', '?', '{', '}', '[', ']', '\\', '|', '(', ')']

/-- Result of compiling a pattern. -/
inductive PatParse
  | toks (ts : List RTok)
  | err          -- `re.error` raised by `re.compile`
  | unmodelled   -- pattern uses regex features outside the modelled subset
deriving DecidableEq

/-- Compile a pattern string over the modelled subset. -/
def parsePat : List Char → PatParse
  | [] => .toks []
  | c :: rest =>
    if c = '.' then
      match parsePat rest with
      | .toks ts => .toks (.dot :: ts)
      | r => r
    else if c = '(' then
      if ')' ∈ rest then .unmodelled else .err
    else if isMetachar c then .unmodelled
    else
      match parsePat rest with
      | .toks ts => .toks (.lit c :: ts)
      | r => r

/-- Match a token list against the beginning of a character list.
`ic = true` is `re.IGNORECASE` (ASCII case folding); `.` matches any character
except `'\n'`. -/
def matchHere : List RTok → List Char → Bool → Bool
  | [], _, _ => true
  | _ :: _, [], _ => false
  | .lit c :: ts, d :: ds, ic =>
    (if ic then c.toLower == d.toLower else c == d) && matchHere ts ds ic
  | .dot :: ts, d :: ds, ic => (d != '\n') && matchHere ts ds ic

/-- `re.search`: does the token list match at some position of the text? -/
def searchFrom (ts : List RTok) : List Char → Bool → Bool
  | cs, ic =>
    matchHere ts cs ic ||
      match cs with
      | [] => false
      | _ :: cs2 => searchFrom ts cs2 ic

/-- `search_transcript` (main.py 355–379).  `none` means the query pattern is
outside the modelled regex subset; otherwise the endpoint's outcome: `404` for
an unknown id or a missing/empty (falsy) transcript, an escaped `re.error` for
an invalid pattern, or the matching segments in order with their zero-based
index as `line_number`, paired with the `total` count. -/
def search_transcript (db : DB) (id : String) (query : String) (case_sensitive : Bool) :
    Option (Except ApiErr (List SearchResult × Nat)) :=
  match dbLookup db id with
  | none => some (.error .notFound)
  | some iv =>
    match iv.transcript with
    | none => some (.error .notFound)
    | some [] => some (.error .notFound)
    | some items =>
      match parsePat query.data with
      | .unmodelled => none
      | .err => some (.error .exn)
      | .toks ts =>
        let ic := !case_sensitive
        let results := (items.enum.filter fun p => searchFrom ts p.2.text.data ic).map
          fun p => SearchResult.mk p.2.text p.2.start p.2.«end» p.1
        some (.ok (results, results.length))

/-! ## Export (`export_interview`, main.py 403–435) -/

/-- Python `f"{x:.1f}"` for the rationals the program formats (exact for values
with one decimal digit; ties of finer values are immaterial to the claims). -/
def fmt1 (q : ℚ) : String :=
  -- ⌊10·q + 1/2⌋, computed on the numerator/denominator directly
  let n : Int := Int.fdiv (20 * q.num + (q.den : Int)) (2 * (q.den : Int))
  let m := n.natAbs
  (if n < 0 then "-" else "") ++ toString (m / 10) ++ "." ++ toString (m % 10)

/-- The transcript line `f"[{item.start:.1f}s - {item.end:.1f}s] {item.text}\n"`. -/
def segLine (it : TranscriptItem) : String :=
  "[" ++ fmt1 it.start ++ "s - " ++ fmt1 it.«end» ++ "s] " ++ it.text ++ "\n"

/-- The tag line `f"[{tag.start_time:.1f}s - {tag.end_time:.1f}s] {tag.text}\n"`. -/
def tagLine (t : Tag) : String :=
  "[" ++ fmt1 t.start_time ++ "s - " ++ fmt1 t.end_time ++ "s] " ++ t.text ++ "\n"

/-- The `txt`-format content string built by `export_interview`
(main.py 416–431); each `content += ...` is an append. -/
def exportTxtContent (iv : Interview) : String :=
  let c1 := "Interview: " ++ iv.original_name ++ "\n" ++
    "Upload Date: " ++ toString iv.upload_date ++ "\n" ++
    "Status: " ++ iv.status ++ "\n\n"
  let c2 := c1 ++
    (match iv.analysis with
     | some a =>
       match a.summary with
       | some s => if s = "" then "" else "SUMMARY:\n" ++ s ++ "\n\n"
       | none => ""
     | none => "")
  let c3 := c2 ++
    (match iv.transcript with
     | some items =>
       if items = [] then "" else items.foldl (fun acc it => acc ++ segLine it) "TRANSCRIPT:\n"
     | none => "")
  c3 ++ (if iv.tags = [] then ""
         else iv.tags.foldl (fun acc t => acc ++ tagLine t) "\nTAGS:\n")

/-- Export response payload. -/
inductive ExportPayload
  | json (interview : Interview) (exported_at : Nat)
  | txt (content : String) (filename : String)
deriving DecidableEq

/-- `export_interview` (main.py 403–435). -/
def export_interview (db : DB) (id : String) (format : String) (now : Nat) :
    Except ApiErr ExportPayload :=
  match dbLookup db id with
  | none => .error .notFound
  | some iv =>
    if pyLower format = "json" then .ok (.json iv now)
    else if pyLower format = "txt" then .ok (.txt (exportTxtContent iv) (id ++ "_export.txt"))
    else .error (.badRequest "Unsupported format")

/-! ## Stats (`get_stats`, main.py 481–501) -/

/-- Python truthiness of `i.transcript` (`None` and `[]` are falsy). -/
def transcriptTruthy (iv : Interview) : Bool :=
  match iv.transcript with
  | some (_ :: _) => true
  | _ => false

/-- `i.transcript[-1].end` under the `if i.transcript` guard. -/
def lastSegEnd (iv : Interview) : ℚ :=
  match iv.transcript with
  | some items => ((items.getLast?).map (·.«end»)).getD 0
  | none => 0

/-- Aggregates returned by `get_stats`.  Durations are kept in seconds; the
endpoint divides by 60 and rounds to two decimals purely for display. -/
structure Stats where
  total_interviews : Nat
  completed_interviews : Nat
  processing_interviews : Nat
  failed_interviews : Nat
  total_duration : ℚ
  average_duration : ℚ
deriving DecidableEq

/-- `get_stats` (main.py 481–501): counts per status; total duration summed
over records whose `transcript` is truthy (non-`None` and non-empty) taking
each one's last segment end; average divides by the completed count when it is
positive, else `0`. -/
def get_stats (db : DB) : Stats :=
  let ivs := db.map (·.2)
  let completed := (ivs.filter fun i => i.status == "completed").length
  let total_duration := ((ivs.filter transcriptTruthy).map lastSegEnd).sum
  { total_interviews := ivs.length
    completed_interviews := completed
    processing_interviews := (ivs.filter fun i => i.status == "processing").length
    failed_interviews := (ivs.filter fun i => i.status == "failed").length
    total_duration := total_duration
    average_duration := if completed > 0 then total_duration / completed else 0 }

/-! ## Fixtures used by witnesses and counterexamples -/

/-- A freshly uploaded record (the result of a minimal valid upload). -/
def ivPlain : Interview :=
  { id := "i1", filename := "i1.mp4", original_name := "clip", file_size := 4, file_path := "p" }

/-- A concrete tag. -/
def tagT1 : Tag := { id := "t1", text := "intro", start_time := 0, end_time := 1 }

/-- An uploaded record carrying one tag. -/
def ivTagged : Interview := { ivPlain with tags := [tagT1] }

/-- A store holding one uploaded record carrying one tag. -/
def dbTagged : DB := [("i1", ivTagged)]

/-- A store holding one uploaded record. -/
def dbOne : DB := [("i1", ivPlain)]

/-- The store produced by a minimal valid upload (`clip.mp4`) into an empty
server. -/
def dbUploaded : DB :=
  (upload_interview ⟨[], []⟩ { filename := some "clip.mp4", size := 4 } "i1" 0).1.db

/-- The store after a simulated run on `"i1"` that failed while attaching the
transcript (reachable from `dbUploaded`). -/
def dbFailed : DB :=
  match simulateTranscription dbUploaded "i1" 1 .atTranscript with
  | .ok d => d
  | .error _ => []

/-- The failed record held by `dbFailed`. -/
def ivFailed : Interview := (dbLookup dbFailed "i1").getD ivPlain

/-- The store after a fault-free simulated run on `"i1"` (reachable from
`dbUploaded`). -/
def dbCompleted : DB :=
  match simulateTranscription dbUploaded "i1" 1 .fnone with
  | .ok d => d
  | .error _ => []

/-- The completed record held by `dbCompleted`. -/
def ivCompleted : Interview := (dbLookup dbCompleted "i1").getD ivPlain

/-- Split a string into its lines (used to state "produces a line containing
exactly ..."). -/
def strLines (s : String) : List String := (s.data.splitOn '\n').map fun l => ⟨l⟩

/-- A record holding the single transcript segment `{10.0, 12.0, "Yes."}`. -/
def ivYes : Interview := { ivPlain with transcript := some [⟨10, 12, "Yes."⟩] }

/-- A store holding `ivYes` under id `"e1"`. -/
def dbYes : DB := [("e1", ivYes)]

/-- The spec's "text contains the query regardless of case": case-insensitive
(ASCII-folded) substring containment. -/
def containsCI (q t : String) : Prop :=
  q.data.map Char.toLower <:+: t.data.map Char.toLower

instance (q t : String) : Decidable (containsCI q t) :=
  List.decidableInfix _ _

/-- The search results described by the spec for a case-insensitive query:
exactly the segments whose text contains the query regardless of case, in
segment order, each carrying its zero-based segment index as `line_number`.
(Spec-side definition, to be compared with `search_transcript`.) -/
def specSearchResults (query : String) (items : List TranscriptItem) : List SearchResult :=
  (items.enum.filter fun p => decide (containsCI query p.2.text)).map
    fun p => SearchResult.mk p.2.text p.2.start p.2.«end» p.1

/-- A record with a two-segment transcript: `"Hello"` (which contains no
literal `'.'`) and `"Great React skills."`. -/
def helloItems : List TranscriptItem :=
  [⟨0, mkRat 5 2, "Hello"⟩, ⟨mkRat 5 2, 5, "Great React skills."⟩]

def ivHello : Interview := { ivPlain with transcript := some helloItems }

/-- A store holding `ivHello` under id `"s1"`. -/
def dbHello : DB := [("s1", ivHello)]

/-- The spec's "durations derived only from completed interviews' transcripts":
sum of the last segment end time over completed records with a truthy
transcript.  (Spec-side definition, to be compared with `get_stats`.) -/
def specCompletedDuration (db : DB) : ℚ :=
  (((db.map (·.2)).filter fun i => i.status == "completed" && transcriptTruthy i).map
    lastSegEnd).sum

/-- Spec-side restatement of the stats aggregation, with the duration source
stated as the code computes it: counts per status; total duration summed over
**every** record whose transcript is truthy (non-null and non-empty),
regardless of status, taking the last segment end; average dividing the total
by the completed count (0 when there are none). -/
def specStats (db : DB) : Stats :=
  let completed := db.countP fun p => p.2.status == "completed"
  let total := (db.map fun p => if transcriptTruthy p.2 then lastSegEnd p.2 else 0).sum
  { total_interviews := db.length
    completed_interviews := completed
    processing_interviews := db.countP fun p => p.2.status == "processing"
    failed_interviews := db.countP fun p => p.2.status == "failed"
    total_duration := total
    average_duration := if completed > 0 then total / completed else 0 }

/-- The store after a simulated run on `dbUploaded` that failed while
attaching the analysis: the record is `failed` but keeps its transcript. -/
def dbFailedWithTranscript : DB :=
  match simulateTranscription dbUploaded "i1" 1 .atAnalysis with
  | .ok d => d
  | .error _ => []

/-- The pairing invariant exactly as the claim states it: `transcript` and
`analysis` both null or both non-null; `completed` implies both non-null;
`uploaded` and `failed` imply both null. -/
def pairedInv (iv : Interview) : Prop :=
  (iv.transcript = none ↔ iv.analysis = none) ∧
    (iv.status = "completed" → iv.transcript ≠ none ∧ iv.analysis ≠ none) ∧
    (iv.status = "uploaded" ∨ iv.status = "failed" →
      iv.transcript = none ∧ iv.analysis = none)

instance (iv : Interview) : Decidable (pairedInv iv) := by
  unfold pairedInv
  infer_instance

/-- The per-record invariant that actually holds at every quiescent reachable
state: `completed` implies both attached; `uploaded` implies both null; a
`failed` record always has a null `analysis` (but may retain a transcript when
the run failed after attaching it); a non-null `analysis` implies a non-null
`transcript`. -/
def recordInv (iv : Interview) : Prop :=
  (iv.status = "completed" → iv.transcript ≠ none ∧ iv.analysis ≠ none) ∧
    (iv.status = "uploaded" → iv.transcript = none ∧ iv.analysis = none) ∧
    (iv.status = "failed" → iv.analysis = none) ∧
    (iv.analysis ≠ none → iv.transcript ≠ none)

instance (iv : Interview) : Decidable (recordInv iv) := by
  unfold recordInv
  infer_instance

/-- No two entries of the store share a key (dictionary keys are unique). -/
def keysNodup (db : DB) : Prop := (db.map Prod.fst).Nodup

/-- Store states reachable through the API operations, observed at quiescent
points.  A scheduled simulator run is modelled as executing atomically between
operations (the spec's per-record single-writer discipline), and it runs only
when `transcribe` would have scheduled it, i.e. from status `uploaded` or
`failed`.  Upload ids are fresh (`uuid4`). -/
inductive Reach : DB → Prop
  | init : Reach []
  | upload (st : ServerState) (req : UploadReq) (newId : String) (now : Nat)
      (st2 : ServerState) (iv : Interview) :
      Reach st.db → dbLookup st.db newId = none →
      upload_interview st req newId now = (st2, .ok iv) → Reach st2.db
  | simulate (db : DB) (id : String) (now : Nat) (fault : SimFault) (db2 : DB)
      (iv : Interview) :
      Reach db → dbLookup db id = some iv →
      (iv.status = "uploaded" ∨ iv.status = "failed") →
      simulateTranscription db id now fault = .ok db2 → Reach db2
  | addTag (db : DB) (id : String) (tag : Tag) (now : Nat) (db2 : DB) (t2 : Tag) :
      Reach db → add_tag db id tag now = .ok (db2, t2) → Reach db2
  | delTag (db : DB) (id tag_id : String) (now : Nat) (db2 : DB) :
      Reach db → delete_tag db id tag_id now = .ok db2 → Reach db2
  | del (db : DB) (id : String) (db2 : DB) :
      Reach db → delete_interview db id = .ok db2 → Reach db2

/-- The mid-run store snapshot between attaching the transcript and attaching
the analysis (third mutation of a fault-free run on `dbUploaded`). -/
def dbMidRun : DB := (simTrace dbUploaded "i1" 1 .fnone).getD 2 []

/-- The record held by `dbMidRun`. -/
def ivMidRun : Interview := (dbLookup dbMidRun "i1").getD ivPlain

/-! ## Store lemmas -/

theorem dbLookup_dbUpdate_self (db : DB) (id : String) (f : Interview → Interview) :
    dbLookup (dbUpdate db id f) id = (dbLookup db id).map f := by
  induction db with
  | nil => rfl
  | cons p rest ih =>
    obtain ⟨k, v⟩ := p
    show dbLookup ((if k = id then (k, f v) else (k, v)) :: dbUpdate rest id f) id = _
    by_cases hk : k = id
    · subst hk
      rw [if_pos rfl]
      simp [dbLookup]
    · rw [if_neg hk]
      show (if k = id then some v else dbLookup (dbUpdate rest id f) id) = _
      rw [if_neg hk, ih]
      show _ = (if k = id then some v else dbLookup rest id).map f
      rw [if_neg hk]

theorem present_dbUpdate (db : DB) (id : String) (f : Interview → Interview) :
    present (dbUpdate db id f) id = present db id := by
  simp [present, dbLookup_dbUpdate_self]

theorem dbUpdate_dbUpdate (db : DB) (id : String) (f g : Interview → Interview) :
    dbUpdate (dbUpdate db id f) id g = dbUpdate db id fun iv => g (f iv) := by
  simp only [dbUpdate, List.map_map]
  apply List.map_congr_left
  intro p _
  by_cases hp : p.1 = id
  · simp [Function.comp, hp]
  · simp [Function.comp, hp]

theorem except_bind_ok {ε α β : Type} (x : α) (f : α → Except ε β) :
    (Except.ok x : Except ε α).bind f = f x := rfl

theorem dbUpdate_congr (db : DB) (id : String) {f g : Interview → Interview}
    (h : ∀ iv, f iv = g iv) : dbUpdate db id f = dbUpdate db id g := by
  simp only [dbUpdate]
  apply List.map_congr_left
  intro p _
  by_cases hp : p.1 = id <;> simp [hp, h]

/-! ## C6 — oversized uploads are rejected before anything is persisted -/

/-- C6: any upload whose payload exceeds 100 MiB is answered with a
BadRequest-class (400) error, and the server state — the record store and the
stored-file list — is exactly the input state: no file was written and no
record was created. -/
theorem upload_oversize_rejected_nothing_persisted (st : ServerState) (req : UploadReq)
    (newId : String) (now : Nat) (h : req.size > 100 * 1024 * 1024) :
    (upload_interview st req newId now).1 = st ∧
      ∃ d, (upload_interview st req newId now).2 = .error (.badRequest d) := by
  unfold upload_interview
  cases hx : inferExt req with
  | error d => exact ⟨rfl, d, rfl⟩
  | ok ext =>
    constructor
    · show ((if req.size > 100 * 1024 * 1024 then _ else _ :
        ServerState × Except ApiErr Interview)).1 = st
      rw [if_pos h]
    · refine ⟨"File too large (>100MB)", ?_⟩
      show ((if req.size > 100 * 1024 * 1024 then _ else _ :
        ServerState × Except ApiErr Interview)).2 = _
      rw [if_pos h]

/-- Witness for C6 at a concrete oversized request. -/
theorem upload_oversize_rejected_nothing_persisted_witness :
    (⟨some "a.mp3", none, none, 104857601⟩ : UploadReq).size > 100 * 1024 * 1024 ∧
      ((upload_interview ⟨[], []⟩ ⟨some "a.mp3", none, none, 104857601⟩ "u1" 0).1 = ⟨[], []⟩ ∧
        ∃ d, (upload_interview ⟨[], []⟩ ⟨some "a.mp3", none, none, 104857601⟩ "u1" 0).2 =
          .error (.badRequest d)) :=
  ⟨by decide, upload_oversize_rejected_nothing_persisted ⟨[], []⟩ _ "u1" 0 (by decide)⟩

/-! ## C4 — the simulator's catch-all -/

/-- C4 counterexample: running the simulator for an id that is no longer in the
store (e.g. the record was deleted after the task was scheduled) raises
`KeyError` at the first `DB[interview_id]` access, and the `except` handler's
own `DB[interview_id]` access raises again, so the exception escapes
`_simulate_transcription` and nothing records `status="failed"`. -/
theorem simulator_missing_id_exception_escapes :
    simulateTranscription [] "ghost" 0 .fnone = .error () ∧
      simulateTranscription [] "ghost" 0 .atTranscript = .error () := by
  constructor <;> rfl

/-- C4 amended: for every id **present in the store**, a simulator run never
escapes with an exception, and if the run was interrupted by a failure the
record is left with `status = "failed"`. -/
theorem simulator_catches_failures_when_present (db : DB) (id : String) (now : Nat)
    (fault : SimFault) (h : present db id = true) :
    (simulateTranscription db id now fault).isOk = true ∧
      (fault ≠ .fnone →
        ((simulateTranscription db id now fault).toOption.bind fun db2 => dbLookup db2 id).map
          Interview.status = some "failed") := by
  obtain ⟨iv, hiv⟩ := Option.isSome_iff_exists.mp h
  cases fault with
  | fnone =>
    refine ⟨?_, fun hne => absurd rfl hne⟩
    simp [simulateTranscription, simRun, h, Except.isOk, Except.toBool]
  | atTranscript =>
    refine ⟨?_, fun _ => ?_⟩
    · simp [simulateTranscription, simRun, h, handleSimFailure, present_dbUpdate,
        Except.isOk, Except.toBool]
    · simp [simulateTranscription, simRun, h, handleSimFailure, present_dbUpdate,
        Except.toOption, dbLookup_dbUpdate_self, hiv]
  | atAnalysis =>
    refine ⟨?_, fun _ => ?_⟩
    · simp [simulateTranscription, simRun, h, handleSimFailure, present_dbUpdate,
        Except.isOk, Except.toBool]
    · simp [simulateTranscription, simRun, h, handleSimFailure, present_dbUpdate,
        Except.toOption, dbLookup_dbUpdate_self, hiv]

/-- Witness for C4 (amended) at a concrete store and fault. -/
theorem simulator_catches_failures_when_present_witness :
    present dbOne "i1" = true ∧
      ((simulateTranscription dbOne "i1" 9 .atAnalysis).isOk = true ∧
        (SimFault.atAnalysis ≠ .fnone →
          ((simulateTranscription dbOne "i1" 9 .atAnalysis).toOption.bind
              fun db2 => dbLookup db2 "i1").map Interview.status = some "failed")) :=
  ⟨by decide, simulator_catches_failures_when_present dbOne "i1" 9 .atAnalysis (by decide)⟩

/-! ## C9 — tag deletion is idempotent and tolerates absent ids -/

/-- C9: deleting a tag id that is not in the record's tag set succeeds and
leaves the tag set unchanged (only `updated_at` is refreshed, the request
clock being held fixed), and deleting the same tag id twice is the same as
deleting it once. -/
theorem delete_tag_absent_noop_and_idempotent (db : DB) (id tag_id : String) (now : Nat)
    (iv : Interview) (h : dbLookup db id = some iv)
    (habs : tag_id ∉ iv.tags.map Tag.id) :
    (∃ db2, delete_tag db id tag_id now = .ok db2 ∧
        dbLookup db2 id = some { iv with updated_at := now }) ∧
      (delete_tag db id tag_id now).bind (fun db2 => delete_tag db2 id tag_id now) =
        delete_tag db id tag_id now := by
  have hfilter : iv.tags.filter (fun t => t.id != tag_id) = iv.tags := by
    apply List.filter_eq_self.mpr
    intro t ht
    simp only [bne_iff_ne, ne_eq, decide_eq_true_eq]
    exact fun he => habs (he ▸ List.mem_map_of_mem Tag.id ht)
  constructor
  · refine ⟨dbUpdate db id fun r =>
      { r with tags := r.tags.filter (fun t => t.id != tag_id), updated_at := now }, ?_, ?_⟩
    · simp [delete_tag, h]
    · simp [dbLookup_dbUpdate_self, h, hfilter]
  · cases hl : dbLookup db id with
    | none => simp [delete_tag, hl, Except.bind]
    | some iv' =>
      simp only [delete_tag, hl, except_bind_ok, dbLookup_dbUpdate_self, Option.map_some',
        dbUpdate_dbUpdate]
      refine congrArg Except.ok (dbUpdate_congr db id fun r => ?_)
      simp [List.filter_filter]

/-- Witness for C9 at a concrete record carrying one tag. -/
theorem delete_tag_absent_noop_and_idempotent_witness :
    dbLookup dbTagged "i1" = some ivTagged ∧
      "t9" ∉ ivTagged.tags.map Tag.id ∧
      ((∃ db2, delete_tag dbTagged "i1" "t9" 5 = .ok db2 ∧
          dbLookup db2 "i1" = some { ivTagged with updated_at := 5 }) ∧
        (delete_tag dbTagged "i1" "t9" 5).bind (fun db2 => delete_tag db2 "i1" "t9" 5) =
          delete_tag dbTagged "i1" "t9" 5) :=
  ⟨by decide, by decide,
    delete_tag_absent_noop_and_idempotent dbTagged "i1" "t9" 5 ivTagged (by decide) (by decide)⟩

/-! ## C1 — terminal statuses and the transcribe trigger -/


/-- C1 counterexample: on a reachable record with `status = "failed"`,
the transcribe endpoint is **not** a no-op: it reports `"processing"` (not the
record's current status `"failed"`) and schedules a new simulated run —
`"failed"` is absent from the no-op guard `{"processing", "completed"}`. -/
theorem transcribe_failed_record_retriggers_cx :
    simulateTranscription dbUploaded "i1" 1 .atTranscript = .ok dbFailed ∧
      (dbLookup dbFailed "i1").map Interview.status = some "failed" ∧
      transcribe dbFailed "i1" = .ok (⟨true, "processing"⟩, true) ∧
      ("processing" : String) ≠ "failed" := by
  refine ⟨rfl, by decide, by decide, by decide⟩

/-- C1 amended: a `completed` record is terminal — transcribe is a no-op that
returns the current status and schedules nothing, and tag operations do not
change the status — but a `failed` record is **not** terminal for the
transcribe trigger: it schedules a fresh simulated run and reports
`"processing"`. -/
theorem transcribe_completed_noop_failed_retriggers (db : DB) (id : String) (iv : Interview)
    (h : dbLookup db id = some iv) :
    (iv.status = "completed" → transcribe db id = .ok (⟨true, "completed"⟩, false)) ∧
      (iv.status = "failed" → transcribe db id = .ok (⟨true, "processing"⟩, true)) ∧
      (∀ tag now, (add_tag db id tag now).map
        (fun r => (dbLookup r.1 id).map Interview.status) = .ok (some iv.status)) ∧
      (∀ tag_id now, (delete_tag db id tag_id now).map
        (fun r => (dbLookup r id).map Interview.status) = .ok (some iv.status)) := by
  refine ⟨fun hs => ?_, fun hs => ?_, fun tag now => ?_, fun tag_id now => ?_⟩
  · simp [transcribe, h, hs]
  · simp [transcribe, h, hs]
  · simp [add_tag, h, dbLookup_dbUpdate_self, Except.map]
  · simp [delete_tag, h, dbLookup_dbUpdate_self, Except.map]

/-- Witness for C1 (amended) at the reachable failed record. -/
theorem transcribe_completed_noop_failed_retriggers_witness :
    dbLookup dbFailed "i1" = some ivFailed ∧
      ((ivFailed.status = "completed" →
          transcribe dbFailed "i1" = .ok (⟨true, "completed"⟩, false)) ∧
        (ivFailed.status = "failed" →
          transcribe dbFailed "i1" = .ok (⟨true, "processing"⟩, true)) ∧
        (∀ tag now, (add_tag dbFailed "i1" tag now).map
          (fun r => (dbLookup r.1 "i1").map Interview.status) = .ok (some ivFailed.status)) ∧
        (∀ tag_id now, (delete_tag dbFailed "i1" tag_id now).map
          (fun r => (dbLookup r "i1").map Interview.status) = .ok (some ivFailed.status))) :=
  ⟨by decide, transcribe_completed_noop_failed_retriggers dbFailed "i1" ivFailed (by decide)⟩

/-! ## C3 — extension inference for extensionless uploads -/

/-- C3 counterexample: an upload named `clip` with declared content type
`application/octet-stream` is **not** rejected with a 400: the content type is
absent from the mapping, so the inference defaults to `.mp4` and the upload is
accepted and stored as `.mp4`. -/
theorem octet_stream_no_ext_accepted_cx :
    ∃ iv, (upload_interview ⟨[], []⟩
        { filename := some "clip", contentType := some "application/octet-stream", size := 4 }
        "u1" 0).2 = .ok iv ∧ iv.filename = "u1.mp4" ∧ iv.status = "uploaded" := by
  exact ⟨_, rfl, rfl, rfl⟩

/-- C3 amended: for an upload whose filename carries no usable extension and
whose payload is within the size limit, declared content type `video/mp4` is
mapped to `.mp4` and the upload is accepted and stored with extension `.mp4`;
declared content type `application/octet-stream` is unmapped, **defaults** to
`.mp4`, and the upload is likewise accepted and stored with extension `.mp4`
(it is not rejected). -/
theorem upload_no_ext_content_type_inference (st : ServerState) (f newId : String)
    (sz : Nat) (now : Nat) (hf : f ≠ "") (hext : splitextExt (pyLower f) = "")
    (hsz : ¬ sz > 100 * 1024 * 1024) :
    (∃ iv, (upload_interview st { filename := some f, contentType := some "video/mp4", size := sz }
        newId now).2 = .ok iv ∧ iv.filename = newId ++ ".mp4" ∧ iv.status = "uploaded") ∧
      (∃ iv, (upload_interview st
          { filename := some f, contentType := some "application/octet-stream", size := sz }
          newId now).2 = .ok iv ∧ iv.filename = newId ++ ".mp4" ∧ iv.status = "uploaded") := by
  have hof : ∀ hd ct, uploadOriginalFilename ⟨some f, hd, ct, sz⟩ = f := by
    intro hd ct
    simp [uploadOriginalFilename, optStrFalsy, hf]
  have key : ∀ ct : String, (content_type_to_ext (pyLower ct)).getD ".mp4" = ".mp4" →
      inferExt ⟨some f, none, some ct, sz⟩ = .ok ".mp4" := by
    intro ct hct
    unfold inferExt
    rw [hof]
    simp only [hext, hct, eq_self_iff_true, if_true]
    rw [if_pos (show (".mp4" ∈ allowed_extensions ∨ lstripDot ".mp4" ∈ allowed_extensions) by
      decide)]
    rfl
  have hup : ∀ ct : String, inferExt ⟨some f, none, some ct, sz⟩ = .ok ".mp4" →
      (upload_interview st ⟨some f, none, some ct, sz⟩ newId now).2 =
        .ok { id := newId, filename := newId ++ ".mp4", original_name := f, file_size := sz,
              file_path := "./uploads/" ++ (newId ++ ".mp4"), upload_date := now,
              status := "uploaded", created_at := now, updated_at := now } := by
    intro ct hct
    unfold upload_interview
    simp only [hct, if_neg hsz, hof]
  constructor
  · exact ⟨_, hup "video/mp4" (key "video/mp4" (by decide)), rfl, rfl⟩
  · exact ⟨_, hup "application/octet-stream" (key "application/octet-stream" (by decide)), rfl, rfl⟩

/-- Witness for C3 (amended) at the concrete filename `clip`. -/
theorem upload_no_ext_content_type_inference_witness :
    ("clip" : String) ≠ "" ∧ splitextExt (pyLower "clip") = "" ∧ ¬ (4 : Nat) > 100 * 1024 * 1024 ∧
      ((∃ iv, (upload_interview ⟨[], []⟩
            { filename := some "clip", contentType := some "video/mp4", size := 4 }
            "u2" 0).2 = .ok iv ∧ iv.filename = "u2" ++ ".mp4" ∧ iv.status = "uploaded") ∧
        (∃ iv, (upload_interview ⟨[], []⟩
            { filename := some "clip", contentType := some "application/octet-stream", size := 4 }
            "u2" 0).2 = .ok iv ∧ iv.filename = "u2" ++ ".mp4" ∧ iv.status = "uploaded")) :=
  ⟨by decide, by decide, by decide,
    upload_no_ext_content_type_inference ⟨[], []⟩ "clip" "u2" 4 0
      (by decide) (by decide) (by decide)⟩

/-! ## C7 — text export -/

theorem strInfix_append_right (a b : String) {l : List Char} (h : l <:+: a.data) :
    l <:+: (a ++ b).data := by
  rw [String.data_append]
  obtain ⟨s, t, hst⟩ := h
  exact ⟨s, t ++ b.data, by rw [← hst]; simp⟩

theorem strInfix_append_left (a b : String) {l : List Char} (h : l <:+: b.data) :
    l <:+: (a ++ b).data := by
  rw [String.data_append]
  obtain ⟨s, t, hst⟩ := h
  exact ⟨a.data ++ s, t, by rw [← hst]; simp⟩

theorem foldl_segLine_extends (items : List TranscriptItem) (acc : String) :
    acc.data <:+: (items.foldl (fun a it => a ++ segLine it) acc).data := by
  induction items generalizing acc with
  | nil => exact List.infix_refl _
  | cons x xs ih =>
    exact (strInfix_append_right acc (segLine x) (List.infix_refl _)).trans (ih (acc ++ segLine x))

theorem segLine_infix_foldl {items : List TranscriptItem} {it : TranscriptItem}
    (h : it ∈ items) (acc : String) :
    (segLine it).data <:+: (items.foldl (fun a x => a ++ segLine x) acc).data := by
  induction items generalizing acc with
  | nil => cases h
  | cons x xs ih =>
    rcases List.mem_cons.mp h with hx | hx
    · subst hx
      exact (strInfix_append_left acc (segLine it) (List.infix_refl _)).trans
        (foldl_segLine_extends xs (acc ++ segLine it))
    · exact ih hx (acc ++ segLine x)

/-- C7 amended: for every interview, the `txt` export renders each transcript
segment as the line `[<start>s - <end>s] <text>` (the exact string
`segLine` appears inside the content); the record with the single segment
`{10.0, 12.0, "Yes."}` yields a line that is exactly `[10.0s - 12.0s] Yes.`;
and a format value is rejected with a 400 precisely when its **lower-cased**
form is neither `json` nor `txt` (the comparison is case-insensitive, so
e.g. format `TXT` succeeds). -/
theorem export_txt_lines_and_unknown_format (db : DB) (id : String) (iv : Interview)
    (now : Nat) (h : dbLookup db id = some iv) :
    (∀ items it, iv.transcript = some items → it ∈ items →
        (segLine it).data <:+: (exportTxtContent iv).data) ∧
      (∀ format, pyLower format ≠ "json" → pyLower format ≠ "txt" →
        export_interview db id format now = .error (.badRequest "Unsupported format")) ∧
      (export_interview dbYes "e1" "txt" 3 =
          .ok (.txt (exportTxtContent ivYes) "e1_export.txt") ∧
        "[10.0s - 12.0s] Yes." ∈ strLines (exportTxtContent ivYes)) := by
  refine ⟨fun items it htr hit => ?_, fun format hf1 hf2 => ?_, rfl, by decide⟩
  · have hne : items ≠ [] := by rintro rfl; cases hit
    unfold exportTxtContent
    simp only [htr, if_neg hne]
    exact strInfix_append_right _ _
      (strInfix_append_left _ _ (segLine_infix_foldl hit "TRANSCRIPT:\n"))
  · simp [export_interview, h, hf1, hf2]

/-- Witness for C7 (amended) at the one-segment record. -/
theorem export_txt_lines_and_unknown_format_witness :
    dbLookup dbYes "e1" = some ivYes ∧
      ((∀ items it, ivYes.transcript = some items → it ∈ items →
          (segLine it).data <:+: (exportTxtContent ivYes).data) ∧
        (∀ format, pyLower format ≠ "json" → pyLower format ≠ "txt" →
          export_interview dbYes "e1" format 3 = .error (.badRequest "Unsupported format")) ∧
        (export_interview dbYes "e1" "txt" 3 =
            .ok (.txt (exportTxtContent ivYes) "e1_export.txt") ∧
          "[10.0s - 12.0s] Yes." ∈ strLines (exportTxtContent ivYes))) :=
  ⟨by decide, export_txt_lines_and_unknown_format dbYes "e1" ivYes 3 (by decide)⟩

/-- C7 counterexample: the format comparison is case-insensitive, so the
format value `TXT` — which is neither `json` nor `txt` — is **not** rejected
with a 400; the export succeeds. -/
theorem export_format_uppercase_accepted_cx :
    ("TXT" : String) ≠ "json" ∧ ("TXT" : String) ≠ "txt" ∧
      export_interview dbYes "e1" "TXT" 3 =
        .ok (.txt (exportTxtContent ivYes) "e1_export.txt") :=
  ⟨by decide, by decide, rfl⟩

/-! ## C5 / C10 — transcript search semantics -/

theorem parsePat_all_lits (cs : List Char) (h : ∀ c ∈ cs, isMetachar c = false) :
    parsePat cs = .toks (cs.map RTok.lit) := by
  induction cs with
  | nil => rfl
  | cons c rest ih =>
    have hc : isMetachar c = false := h c (List.mem_cons_self c rest)
    have h1 : ¬ c = '.' := by
      intro he; rw [he] at hc; exact absurd hc (by decide)
    have h2 : ¬ c = '(' := by
      intro he; rw [he] at hc; exact absurd hc (by decide)
    unfold parsePat
    rw [if_neg h1, if_neg h2, if_neg (by simp [hc]),
      ih fun d hd => h d (List.mem_cons_of_mem c hd)]
    rfl

theorem matchHere_lits (l cs : List Char) :
    matchHere (l.map RTok.lit) cs true = true ↔
      l.map Char.toLower <+: cs.map Char.toLower := by
  induction l generalizing cs with
  | nil => simp [matchHere]
  | cons c l ih =>
    cases cs with
    | nil => simp [matchHere]
    | cons d ds =>
      simp [matchHere, ih, List.cons_prefix_cons]

theorem searchFrom_lits (l cs : List Char) :
    searchFrom (l.map RTok.lit) cs true = true ↔
      l.map Char.toLower <:+: cs.map Char.toLower := by
  induction cs with
  | nil =>
    rw [searchFrom]
    cases l with
    | nil => simp [matchHere]
    | cons c l => simp [matchHere]
  | cons d ds ih =>
    rw [searchFrom]
    simp only [Bool.or_eq_true, matchHere_lits, ih, List.map_cons, List.infix_cons_iff]

theorem searchFrom_lits_decide (query t : String) :
    searchFrom (query.data.map RTok.lit) t.data true = decide (containsCI query t) := by
  cases hsf : searchFrom (query.data.map RTok.lit) t.data true with
  | true => exact (decide_eq_true ((searchFrom_lits query.data t.data).mp hsf)).symm
  | false =>
    refine (decide_eq_false fun hc => ?_).symm
    rw [(searchFrom_lits query.data t.data).mpr hc] at hsf
    cases hsf

/-- C5 amended: for a query in which every character is a regex-literal (no
metacharacter), case-insensitive search over a record with a non-null,
non-empty transcript returns exactly `specSearchResults`: the segments whose
text contains the query regardless of case, in segment order, each tagged with
its zero-based index as `line_number`, together with the matching count; and
for a record with a null transcript the search fails with NotFound (404). -/
theorem search_literal_query_ci_substring (db : DB) (id : String) (iv : Interview)
    (query : String) (h : dbLookup db id = some iv)
    (hq : ∀ c ∈ query.data, isMetachar c = false) :
    (∀ items, iv.transcript = some items → items ≠ [] →
        search_transcript db id query false =
          some (.ok (specSearchResults query items, (specSearchResults query items).length))) ∧
      (iv.transcript = none →
        search_transcript db id query false = some (.error .notFound)) := by
  constructor
  · intro items htr hne
    obtain ⟨x, xs, rfl⟩ : ∃ x xs, items = x :: xs := by
      cases items with
      | nil => exact absurd rfl hne
      | cons a b => exact ⟨a, b, rfl⟩
    unfold search_transcript
    simp only [h, htr, parsePat_all_lits query.data hq, Bool.not_false]
    have hfeq : ((x :: xs).enum.filter
          fun p => searchFrom (query.data.map RTok.lit) p.2.text.data true) =
        ((x :: xs).enum.filter fun p => decide (containsCI query p.2.text)) :=
      List.filter_congr fun p _ => searchFrom_lits_decide query p.2.text
    rw [hfeq]
    rfl
  · intro hnone
    unfold search_transcript
    simp only [h, hnone]

/-- Witness for C5 (amended): query `react` over a transcript whose second
segment contains `React`. -/
theorem search_literal_query_ci_substring_witness :
    dbLookup dbHello "s1" = some ivHello ∧
      (∀ c ∈ ("react" : String).data, isMetachar c = false) ∧
      ((∀ items, ivHello.transcript = some items → items ≠ [] →
          search_transcript dbHello "s1" "react" false =
            some (.ok (specSearchResults "react" items,
              (specSearchResults "react" items).length))) ∧
        (ivHello.transcript = none →
          search_transcript dbHello "s1" "react" false = some (.error .notFound))) :=
  ⟨by decide, by decide,
    search_literal_query_ci_substring dbHello "s1" ivHello "react" (by decide) (by decide)⟩

/-- C5 counterexample: search is regex search, not substring search — with
query `"."` the segment `"Hello"`, whose text does **not** contain the query
as a (case-insensitive) substring, is nevertheless returned as a match. -/
theorem search_dot_query_matches_hello_cx :
    search_transcript dbHello "s1" "." false =
        some (.ok ([⟨"Hello", 0, mkRat 5 2, 0⟩, ⟨"Great React skills.", mkRat 5 2, 5, 1⟩], 2)) ∧
      ¬ containsCI "." "Hello" := by
  exact ⟨by decide, by decide⟩

/-- C10: the query is interpreted as a regular expression: the
metacharacter query `"."` matches the segment `"Hello"` although that text
does not contain `"."` literally, and the syntactically invalid pattern `"("`
raises an error that is neither NotFound nor BadRequest (the `re.error`
escapes the handler). -/
theorem search_query_regex_semantics :
    ((search_transcript dbHello "s1" "." false).map
        (fun r => r.map fun p => (p.1.map SearchResult.line_number, p.2)) =
          some (.ok ([0, 1], 2)) ∧
      ¬ containsCI "." "Hello") ∧
      (search_transcript dbHello "s1" "(" false = some (.error .exn) ∧
        ApiErr.exn ≠ ApiErr.notFound ∧ ∀ d, ApiErr.exn ≠ ApiErr.badRequest d) := by
  refine ⟨⟨by decide, by decide⟩, by decide, by decide, fun d h => ApiErr.noConfusion h⟩

/-! ## C8 — stats aggregation -/

theorem sum_filter_truthy (l : List Interview) :
    ((l.filter transcriptTruthy).map lastSegEnd).sum =
      (l.map fun i => if transcriptTruthy i then lastSegEnd i else 0).sum := by
  induction l with
  | nil => rfl
  | cons x xs ih =>
    by_cases hx : transcriptTruthy x <;>
      simp [List.filter_cons, hx, ih]

/-- C8 amended: `get_stats` returns the per-status counts, its total duration
sums the last segment end over **every** record with a truthy transcript —
regardless of that record's status — and its average divides the total by the
number of completed interviews (0 when there are none). -/
theorem get_stats_characterization (db : DB) : get_stats db = specStats db := by
  unfold get_stats specStats
  have hcount : ∀ p : Interview → Bool,
      ((db.map (·.2)).filter p).length = db.countP fun q => p q.2 := by
    intro p
    rw [← List.countP_eq_length_filter, List.countP_map]
    rfl
  have htot : (((db.map (·.2)).filter transcriptTruthy).map lastSegEnd).sum =
      (db.map fun p => if transcriptTruthy p.2 then lastSegEnd p.2 else 0).sum := by
    rw [sum_filter_truthy, List.map_map]
    rfl
  simp only [List.length_map, hcount, htot]

/-- C8 counterexample: a reachable store in which the only record is `failed`
(a simulator run that failed while attaching the analysis) still contributes
its transcript's last segment end to `get_stats`'s total duration, although
zero interviews are completed — so the durations are **not** derived only from
completed interviews' transcripts. -/
theorem stats_total_counts_failed_record_cx :
    simulateTranscription dbUploaded "i1" 1 .atAnalysis = .ok dbFailedWithTranscript ∧
      (dbLookup dbFailedWithTranscript "i1").map Interview.status = some "failed" ∧
      (get_stats dbFailedWithTranscript).completed_interviews = 0 ∧
      (get_stats dbFailedWithTranscript).total_duration = 18 ∧
      specCompletedDuration dbFailedWithTranscript = 0 ∧ (18 : ℚ) ≠ 0 := by
  refine ⟨rfl, by decide, by decide, ?_, ?_, by decide⟩
  · show (((dbFailedWithTranscript.map (·.2)).filter transcriptTruthy).map lastSegEnd).sum = 18
    have hvals : ((dbFailedWithTranscript.map (·.2)).filter transcriptTruthy).map lastSegEnd =
        [18] := by decide
    rw [hvals]
    simp
  · show (((dbFailedWithTranscript.map (·.2)).filter
        fun i => i.status == "completed" && transcriptTruthy i).map lastSegEnd).sum = 0
    have hvals : ((dbFailedWithTranscript.map (·.2)).filter
        fun i => i.status == "completed" && transcriptTruthy i).map lastSegEnd = [] := by decide
    rw [hvals]
    rfl

/-! ## C2 — reachable-state invariant machinery -/

theorem dbUpdate_keys (db : DB) (id : String) (f : Interview → Interview) :
    (dbUpdate db id f).map Prod.fst = db.map Prod.fst := by
  simp only [dbUpdate, List.map_map]
  apply List.map_congr_left
  intro p _
  by_cases hp : p.1 = id <;> simp [hp]

theorem dbLookup_cons (a : String) (v : Interview) (rest : DB) (k : String) :
    dbLookup ((a, v) :: rest) k = if a = k then some v else dbLookup rest k := rfl

theorem dbLookup_none_not_mem {db : DB} {k : String} (h : dbLookup db k = none) :
    k ∉ db.map Prod.fst := by
  induction db with
  | nil => simp
  | cons p rest ih =>
    obtain ⟨a, v⟩ := p
    rw [dbLookup_cons] at h
    by_cases hak : a = k
    · rw [if_pos hak] at h; cases h
    · rw [if_neg hak] at h
      simp only [List.map_cons, List.mem_cons]
      rintro (he | he)
      · exact hak he.symm
      · exact ih h he

theorem dbLookup_mem {db : DB} {k : String} {v : Interview} (h : dbLookup db k = some v) :
    (k, v) ∈ db := by
  induction db with
  | nil => cases h
  | cons p rest ih =>
    obtain ⟨a, w⟩ := p
    rw [dbLookup_cons] at h
    by_cases hak : a = k
    · rw [if_pos hak] at h
      injection h with hwv
      subst hwv
      subst hak
      exact List.mem_cons_self (a, w) rest
    · rw [if_neg hak] at h
      exact List.mem_cons_of_mem _ (ih h)

theorem mem_dbLookup_nodup {db : DB} (hnd : keysNodup db) {k : String} {v : Interview}
    (h : (k, v) ∈ db) : dbLookup db k = some v := by
  induction db with
  | nil => cases h
  | cons p rest ih =>
    obtain ⟨a, w⟩ := p
    rw [dbLookup_cons]
    have hnd2 : keysNodup rest ∧ a ∉ rest.map Prod.fst := by
      unfold keysNodup at hnd ⊢
      rw [List.map_cons, List.nodup_cons] at hnd
      exact ⟨hnd.2, hnd.1⟩
    rcases List.mem_cons.mp h with he | hm
    · injection he with h1 h2
      subst h1
      subst h2
      rw [if_pos rfl]
    · by_cases hak : a = k
      · subst hak
        exact absurd (List.mem_map_of_mem Prod.fst hm) hnd2.2
      · rw [if_neg hak]
        exact ih hnd2.1 hm

theorem mem_dbUpdate {p : String × Interview} {db : DB} {id : String}
    {f : Interview → Interview} (h : p ∈ dbUpdate db id f) :
    ∃ q ∈ db, (¬ q.1 = id ∧ p = q) ∨ (q.1 = id ∧ p = (q.1, f q.2)) := by
  obtain ⟨q, hq, hpq⟩ := List.mem_map.mp h
  refine ⟨q, hq, ?_⟩
  by_cases hid : q.1 = id
  · right; exact ⟨hid, by rw [← hpq, if_pos hid]⟩
  · left; exact ⟨hid, by rw [← hpq, if_neg hid]⟩

theorem upload_ok_shape (st : ServerState) (req : UploadReq) (newId : String) (now : Nat)
    (st2 : ServerState) (iv : Interview)
    (h : upload_interview st req newId now = (st2, .ok iv)) :
    st2.db = st.db ++ [(newId, iv)] ∧ iv.status = "uploaded" ∧
      iv.transcript = none ∧ iv.analysis = none := by
  unfold upload_interview at h
  split at h
  · injection h with h1 h2; cases h2
  · split at h
    · injection h with h1 h2; cases h2
    · injection h with h1 h2
      injection h2 with h3
      subst h3
      rw [← h1]
      exact ⟨rfl, rfl, rfl, rfl⟩

theorem add_tag_ok {db : DB} {id : String} {tag : Tag} {now : Nat} {db2 : DB} {t2 : Tag}
    (h : add_tag db id tag now = .ok (db2, t2)) :
    db2 = dbUpdate db id fun iv => { iv with tags := iv.tags ++ [tag], updated_at := now } := by
  unfold add_tag at h
  split at h
  · cases h
  · injection Except.ok.inj h with h1 h2
    exact h1.symm

theorem delete_tag_ok {db : DB} {id tag_id : String} {now : Nat} {db2 : DB}
    (h : delete_tag db id tag_id now = .ok db2) :
    db2 = dbUpdate db id fun iv =>
      { iv with tags := iv.tags.filter (fun t => t.id != tag_id), updated_at := now } := by
  unfold delete_tag at h
  split at h
  · cases h
  · exact (Except.ok.inj h).symm

theorem delete_interview_ok {db : DB} {id : String} {db2 : DB}
    (h : delete_interview db id = .ok db2) :
    db2 = db.filter fun p => p.1 != id := by
  unfold delete_interview at h
  split at h
  · cases h
  · exact (Except.ok.inj h).symm

theorem simulateTranscription_fnone (db : DB) (id : String) (now : Nat)
    (h : present db id = true) :
    simulateTranscription db id now .fnone =
      .ok (dbUpdate db id fun iv =>
        { iv with
            status := "completed"
            transcript := some SAMPLE_TRANSCRIPT
            analysis := some SAMPLE_ANALYSIS
            updated_at := now }) := by
  simp [simulateTranscription, simRun, h, handleSimFailure, present_dbUpdate,
    dbUpdate_dbUpdate]

theorem simulateTranscription_atTranscript (db : DB) (id : String) (now : Nat)
    (h : present db id = true) :
    simulateTranscription db id now .atTranscript =
      .ok (dbUpdate db id fun iv => { iv with status := "failed", updated_at := now }) := by
  simp [simulateTranscription, simRun, h, handleSimFailure, present_dbUpdate,
    dbUpdate_dbUpdate]

theorem simulateTranscription_atAnalysis (db : DB) (id : String) (now : Nat)
    (h : present db id = true) :
    simulateTranscription db id now .atAnalysis =
      .ok (dbUpdate db id fun iv =>
        { iv with
            status := "failed"
            transcript := some SAMPLE_TRANSCRIPT
            updated_at := now }) := by
  simp [simulateTranscription, simRun, h, handleSimFailure, present_dbUpdate,
    dbUpdate_dbUpdate]

theorem simulateTranscription_not_present (db : DB) (id : String) (now : Nat) (fault : SimFault)
    (h : present db id = false) :
    simulateTranscription db id now fault = .error () := by
  simp [simulateTranscription, simRun, h, handleSimFailure]

theorem simulateTranscription_keys {db : DB} {id : String} {now : Nat} {fault : SimFault}
    {db2 : DB} (h : simulateTranscription db id now fault = .ok db2) :
    db2.map Prod.fst = db.map Prod.fst := by
  cases hp : present db id with
  | false => rw [simulateTranscription_not_present db id now fault hp] at h; cases h
  | true =>
    cases fault with
    | fnone =>
      rw [simulateTranscription_fnone db id now hp] at h
      rw [← Except.ok.inj h]
      exact dbUpdate_keys db id _
    | atTranscript =>
      rw [simulateTranscription_atTranscript db id now hp] at h
      rw [← Except.ok.inj h]
      exact dbUpdate_keys db id _
    | atAnalysis =>
      rw [simulateTranscription_atAnalysis db id now hp] at h
      rw [← Except.ok.inj h]
      exact dbUpdate_keys db id _

theorem reach_nodup {db : DB} (h : Reach db) : keysNodup db := by
  induction h with
  | init => exact List.nodup_nil
  | upload st req newId now st2 iv _ hfresh hup ih =>
    obtain ⟨hdb, _, _, _⟩ := upload_ok_shape _ _ _ _ _ _ hup
    unfold keysNodup at *
    rw [hdb, List.map_append, List.nodup_append]
    refine ⟨ih, List.nodup_singleton _, ?_⟩
    intro a ha hma
    rw [List.map_singleton, List.mem_singleton] at hma
    subst hma
    exact dbLookup_none_not_mem hfresh ha
  | simulate db id now fault db2 iv _ hl hst hrun ih =>
    unfold keysNodup at *
    rw [simulateTranscription_keys hrun]
    exact ih
  | addTag db id tag now db2 t2 _ hadd ih =>
    unfold keysNodup at *
    rw [add_tag_ok hadd, dbUpdate_keys]
    exact ih
  | delTag db id tag_id now db2 _ hdel ih =>
    unfold keysNodup at *
    rw [delete_tag_ok hdel, dbUpdate_keys]
    exact ih
  | del db id db2 _ hdel ih =>
    unfold keysNodup at *
    rw [delete_interview_ok hdel]
    exact ((List.filter_sublist db).map Prod.fst).nodup ih

/-- C2 amended: at every quiescent reachable store state, every record
satisfies: `completed` implies `transcript` and `analysis` are both non-null;
`uploaded` implies both are null; a `failed` record always has a null
`analysis` (though it may retain a non-null transcript when the simulated run
failed after attaching it); and a non-null `analysis` implies a non-null
`transcript`.  (The claim's full both-null-or-both-non-null pairing is
refuted by the simulator's intermediate state, see the counterexample.) -/
theorem reachable_record_invariant (db : DB) (h : Reach db) :
    ∀ p ∈ db, recordInv p.2 := by
  induction h with
  | init => intro p hp; cases hp
  | upload st req newId now st2 iv _ hfresh hup ih =>
    obtain ⟨hdb, hs, ht, ha⟩ := upload_ok_shape _ _ _ _ _ _ hup
    intro p hp
    rw [hdb] at hp
    rcases List.mem_append.mp hp with hm | hm
    · exact ih p hm
    · rw [List.mem_singleton] at hm
      subst hm
      simp [recordInv, hs, ht, ha]
  | simulate db id now fault db2 iv hr hl hst hrun ih =>
    have hnd : keysNodup db := reach_nodup hr
    have hp : present db id = true := by
      unfold present
      rw [hl]
      rfl
    have hinv : recordInv iv := ih (id, iv) (dbLookup_mem hl)
    have hanone : iv.analysis = none := by
      rcases hst with hs | hs
      · exact (hinv.2.1 hs).2
      · exact hinv.2.2.1 hs
    have key : ∀ (F : Interview → Interview), db2 = dbUpdate db id F →
        (∀ q ∈ db, q.1 = id → recordInv (F iv)) → ∀ p ∈ db2, recordInv p.2 := by
      intro F hdb2 hF p hpmem
      rw [hdb2] at hpmem
      obtain ⟨q, hq, hcase⟩ := mem_dbUpdate hpmem
      rcases hcase with ⟨hne, hpq⟩ | ⟨hqi, hpq⟩
      · rw [hpq]
        exact ih q hq
      · have hq2 : (id, q.2) ∈ db := by
          rw [← hqi]
          exact hq
        have hqv : q.2 = iv := by
          have hlq := mem_dbLookup_nodup hnd hq2
          rw [hl] at hlq
          exact (Option.some.inj hlq).symm
        rw [hpq]
        show recordInv (F q.2)
        rw [hqv]
        exact hF q hq hqi
    cases fault with
    | fnone =>
      rw [simulateTranscription_fnone db id now hp] at hrun
      refine key _ (Except.ok.inj hrun).symm fun q hq hqi => ?_
      simp [recordInv]
    | atTranscript =>
      rw [simulateTranscription_atTranscript db id now hp] at hrun
      refine key _ (Except.ok.inj hrun).symm fun q hq hqi => ?_
      simp [recordInv, hanone]
    | atAnalysis =>
      rw [simulateTranscription_atAnalysis db id now hp] at hrun
      refine key _ (Except.ok.inj hrun).symm fun q hq hqi => ?_
      simp [recordInv, hanone]
  | addTag db id tag now db2 t2 _ hadd ih =>
    intro p hp
    rw [add_tag_ok hadd] at hp
    obtain ⟨q, hq, hcase⟩ := mem_dbUpdate hp
    rcases hcase with ⟨_, hpq⟩ | ⟨_, hpq⟩
    · rw [hpq]
      exact ih q hq
    · rw [hpq]
      show recordInv ({ q.2 with tags := q.2.tags ++ [tag], updated_at := now })
      have hiq := ih q hq
      unfold recordInv at hiq ⊢
      exact hiq
  | delTag db id tag_id now db2 _ hdel ih =>
    intro p hp
    rw [delete_tag_ok hdel] at hp
    obtain ⟨q, hq, hcase⟩ := mem_dbUpdate hp
    rcases hcase with ⟨_, hpq⟩ | ⟨_, hpq⟩
    · rw [hpq]
      exact ih q hq
    · rw [hpq]
      show recordInv
        ({ q.2 with tags := q.2.tags.filter (fun t => t.id != tag_id), updated_at := now })
      have hiq := ih q hq
      unfold recordInv at hiq ⊢
      exact hiq
  | del db id db2 _ hdel ih =>
    intro p hp
    rw [delete_interview_ok hdel] at hp
    exact ih p (List.mem_of_mem_filter hp)

/-- Witness for C2 (amended) at a concrete reachable store. -/
theorem reachable_record_invariant_witness :
    Reach dbUploaded ∧ ∀ p ∈ dbUploaded, recordInv p.2 := by
  have hr : Reach dbUploaded :=
    Reach.upload ⟨[], []⟩ { filename := some "clip.mp4", size := 4 } "i1" 0 _ _
      Reach.init rfl rfl
  exact ⟨hr, reachable_record_invariant dbUploaded hr⟩

/-- C2 counterexample: the claim's both-null-or-both-non-null pairing fails at
the simulator's intermediate state between attaching the transcript and the
analysis — starting from the reachable store `dbUploaded`, the third snapshot
of a fault-free run holds a record with a non-null `transcript` and a null
`analysis`. -/
theorem pairing_invariant_violated_mid_run_cx :
    Reach dbUploaded ∧
      dbMidRun ∈ simTrace dbUploaded "i1" 1 .fnone ∧
      dbLookup dbMidRun "i1" = some ivMidRun ∧
      ivMidRun.transcript ≠ none ∧ ivMidRun.analysis = none ∧
      ¬ pairedInv ivMidRun := by
  refine ⟨?_, by decide, by decide, by decide, by decide, by decide⟩
  exact Reach.upload ⟨[], []⟩ { filename := some "clip.mp4", size := 4 } "i1" 0 _ _
    Reach.init rfl rfl
